import Mathlib

set_option maxRecDepth 100000

/-!
Verification of the Diagnosis Workflow Controller of the AgroDetect
single-page application (src/App.tsx).

The controller's state is the four React state cells declared in `App`
(`image`, `isAnalyzing`, `result`, `error`).  Its operations are:
the synchronous prefix of `analyzeImage` (invoked by `handleFileChange`
after `setImage`), the resolution of the outbound `generateContent`
call (the `try`/`catch`/`finally` continuation), and `reset`.

Because `analyzeImage` parses the service's body with
`JSON.parse(response.text || "...")` inside the `try` block, a small
executable JSON parser is embedded here: it is used to distinguish an
empty body (which receives the empty-object fallback), a body that is
valid JSON (stored as the result, whatever its shape), and a body that
is not valid JSON (whose parse throws and lands in the `catch` block).
-/

/-- A JSON value, as produced by `JSON.parse`.  Numbers keep their
source lexeme; object fields keep their source order (duplicate keys
are resolved last-wins at lookup time, as in JavaScript). -/
inductive Json where
  | null
  | bool (b : Bool)
  | num (lit : String)
  | str (s : String)
  | arr (elems : List Json)
  | obj (fields : List (String × Json))

/-- JSON whitespace. -/
def isWs (c : Char) : Bool :=
  c = ' ' || c = '\n' || c = '\t' || c = '\r'

/-- Drop leading JSON whitespace. -/
def skipWs : List Char → List Char
  | [] => []
  | c :: cs => if isWs c then skipWs cs else c :: cs

/-- Value of a hexadecimal digit. -/
def hexVal (c : Char) : Option Nat :=
  if '0'.toNat ≤ c.toNat && c.toNat ≤ '9'.toNat then some (c.toNat - '0'.toNat)
  else if 'a'.toNat ≤ c.toNat && c.toNat ≤ 'f'.toNat then some (c.toNat - 'a'.toNat + 10)
  else if 'A'.toNat ≤ c.toNat && c.toNat ≤ 'F'.toNat then some (c.toNat - 'A'.toNat + 10)
  else none

/-- Decimal digit test. -/
def isDigitCh (c : Char) : Bool :=
  '0'.toNat ≤ c.toNat && c.toNat ≤ '9'.toNat

/-- Scan the body of a JSON string literal (after the opening quote),
handling the escape sequences of the JSON grammar; returns the decoded
characters and the remaining input after the closing quote. -/
def parseStrChars : Nat → List Char → Option (List Char × List Char)
  | 0, _ => none
  | _ + 1, [] => none
  | fuel + 1, c :: cs =>
    if c = '"' then some ([], cs)
    else if c = '\\' then
      match cs with
      | [] => none
      | e :: cs₂ =>
        let esc : Option (Char × List Char) :=
          if e = '"' then some ('"', cs₂)
          else if e = '\\' then some ('\\', cs₂)
          else if e = '/' then some ('/', cs₂)
          else if e = 'b' then some ('\x08', cs₂)
          else if e = 'f' then some ('\x0c', cs₂)
          else if e = 'n' then some ('\n', cs₂)
          else if e = 'r' then some ('\r', cs₂)
          else if e = 't' then some ('\t', cs₂)
          else if e = 'u' then
            match cs₂ with
            | a :: b :: c₃ :: d :: cs₃ =>
              match hexVal a, hexVal b, hexVal c₃, hexVal d with
              | some ha, some hb, some hc, some hd =>
                some (Char.ofNat (((ha * 16 + hb) * 16 + hc) * 16 + hd), cs₃)
              | _, _, _, _ => none
            | _ => none
          else none
        match esc with
        | none => none
        | some (ch, rest) =>
          match parseStrChars fuel rest with
          | none => none
          | some (s, r) => some (ch :: s, r)
    else if c.toNat < 32 then none
    else
      match parseStrChars fuel cs with
      | none => none
      | some (s, r) => some (c :: s, r)

/-- Lex a JSON number, returning its lexeme and the remaining input. -/
def parseNum (l : List Char) : Option (List Char × List Char) :=
  let sign : List Char × List Char :=
    match l with
    | '-' :: t => (['-'], t)
    | _ => ([], l)
  let intRes : Option (List Char × List Char) :=
    match sign.2 with
    | '0' :: t => some (['0'], t)
    | c :: _ =>
      if isDigitCh c then
        some (sign.2.takeWhile isDigitCh, sign.2.dropWhile isDigitCh)
      else none
    | [] => none
  match intRes with
  | none => none
  | some (ip, r₁) =>
    let fracRes : Option (List Char × List Char) :=
      match r₁ with
      | '.' :: t =>
        if (t.takeWhile isDigitCh).isEmpty then none
        else some ('.' :: t.takeWhile isDigitCh, t.dropWhile isDigitCh)
      | _ => some ([], r₁)
    match fracRes with
    | none => none
    | some (fp, r₂) =>
      let expRes : Option (List Char × List Char) :=
        match r₂ with
        | e :: t =>
          if e = 'e' || e = 'E' then
            let se : List Char × List Char :=
              match t with
              | '+' :: u => (['+'], u)
              | '-' :: u => (['-'], u)
              | _ => ([], t)
            if (se.2.takeWhile isDigitCh).isEmpty then none
            else some (e :: (se.1 ++ se.2.takeWhile isDigitCh), se.2.dropWhile isDigitCh)
          else some ([], r₂)
        | [] => some ([], r₂)
      match expRes with
      | none => none
      | some (ep, r₃) => some (sign.1 ++ ip ++ fp ++ ep, r₃)

mutual

/-- Parse one JSON value (after skipping leading whitespace). -/
def parseVal : Nat → List Char → Option (Json × List Char)
  | 0, _ => none
  | fuel + 1, l =>
    match skipWs l with
    | 'n' :: 'u' :: 'l' :: 'l' :: r => some (.null, r)
    | 't' :: 'r' :: 'u' :: 'e' :: r => some (.bool true, r)
    | 'f' :: 'a' :: 'l' :: 's' :: 'e' :: r => some (.bool false, r)
    | '"' :: r =>
      match parseStrChars (r.length + 1) r with
      | some (s, r₂) => some (.str (String.mk s), r₂)
      | none => none
    | '[' :: r =>
      match skipWs r with
      | ']' :: r₂ => some (.arr [], r₂)
      | r₂ =>
        match parseItems fuel r₂ with
        | some (xs, r₃) => some (.arr xs, r₃)
        | none => none
    | '\x7b' :: r =>
      match skipWs r with
      | '\x7d' :: r₂ => some (.obj [], r₂)
      | r₂ =>
        match parseFields fuel r₂ with
        | some (fs, r₃) => some (.obj fs, r₃)
        | none => none
    | l₂ =>
      match parseNum l₂ with
      | some (ds, r) => some (.num (String.mk ds), r)
      | none => none

/-- Parse the comma-separated items of a non-empty JSON array, up to and
including the closing bracket. -/
def parseItems : Nat → List Char → Option (List Json × List Char)
  | 0, _ => none
  | fuel + 1, l =>
    match parseVal fuel l with
    | none => none
    | some (v, r) =>
      match skipWs r with
      | ',' :: r₂ =>
        match parseItems fuel r₂ with
        | some (vs, r₃) => some (v :: vs, r₃)
        | none => none
      | ']' :: r₂ => some ([v], r₂)
      | _ => none

/-- Parse the comma-separated members of a non-empty JSON object, up to
and including the closing brace. -/
def parseFields : Nat → List Char → Option (List (String × Json) × List Char)
  | 0, _ => none
  | fuel + 1, l =>
    match skipWs l with
    | '"' :: r =>
      match parseStrChars (r.length + 1) r with
      | none => none
      | some (k, r₂) =>
        match skipWs r₂ with
        | ':' :: r₃ =>
          match parseVal fuel r₃ with
          | none => none
          | some (v, r₄) =>
            match skipWs r₄ with
            | ',' :: r₅ =>
              match parseFields fuel r₅ with
              | some (fs, r₆) => some ((String.mk k, v) :: fs, r₆)
              | none => none
            | '\x7d' :: r₅ => some ([(String.mk k, v)], r₅)
            | _ => none
        | _ => none
    | _ => none

end

/-- `JSON.parse`: succeeds exactly when the whole input is one JSON
value surrounded by optional whitespace; `none` models a thrown
`SyntaxError`. -/
def Json.parse (s : String) : Option Json :=
  match parseVal (s.length + 1) s.toList with
  | some (v, r) => if (skipWs r).isEmpty then some v else none
  | none => none

/-!  JavaScript property access on parsed values. -/

/-- Last-wins association lookup, matching the duplicate-key behavior
of `JSON.parse` followed by property access. -/
def lookupLast : List (String × Json) → String → Option Json
  | [], _ => none
  | (k, v) :: rest, key =>
    match lookupLast rest key with
    | some w => some w
    | none => if k = key then some v else none

/-- Property access `j[name]`: `none` models `undefined` (missing
property, or access on a non-object value). -/
def getField : Json → String → Option Json
  | .obj fs, key => lookupLast fs key
  | _, _ => none

/-- Read a JSON value as a string, `none` if it is not a string. -/
def asStr : Json → Option String
  | .str s => some s
  | _ => none

/-- Read a list of JSON values as strings, all-or-nothing. -/
def strList : List Json → Option (List String)
  | [] => some []
  | .str s :: xs => (strList xs).map (fun l => s :: l)
  | _ => none

/-- Read a JSON value as an array of strings. -/
def asStrList : Json → Option (List String)
  | .arr xs => strList xs
  | _ => none

/-!  The data model: the `AnalysisResult` interface of src/App.tsx. -/

/-- The seven-field structured diagnosis declared as `interface
AnalysisResult` in src/App.tsx. -/
structure AnalysisResult where
  diseaseName : String
  scientificName : String
  confidence : String
  symptoms : List String
  causes : List String
  treatment : String
  prevention : String
deriving DecidableEq

/-- The JSON object a service response carries when it honors the
`responseSchema` of the request: the seven fields, in schema order,
with `symptoms` and `causes` as string arrays. -/
def encode (r : AnalysisResult) : Json :=
  .obj [("diseaseName", .str r.diseaseName),
        ("scientificName", .str r.scientificName),
        ("confidence", .str r.confidence),
        ("symptoms", .arr (r.symptoms.map .str)),
        ("causes", .arr (r.causes.map .str)),
        ("treatment", .str r.treatment),
        ("prevention", .str r.prevention)]

/-- Read a parsed response back as an `AnalysisResult`: defined exactly
when all seven fields are present with their declared types.  This is
the view the rendering code takes of `result` (field accesses such as
`result.diseaseName`, `result.symptoms.map`). -/
def decode (j : Json) : Option AnalysisResult :=
  ((getField j "diseaseName").bind asStr).bind fun dn =>
  ((getField j "scientificName").bind asStr).bind fun sn =>
  ((getField j "confidence").bind asStr).bind fun cf =>
  ((getField j "symptoms").bind asStrList).bind fun sy =>
  ((getField j "causes").bind asStrList).bind fun ca =>
  ((getField j "treatment").bind asStr).bind fun tr =>
  ((getField j "prevention").bind asStr).map fun pv =>
  { diseaseName := dn, scientificName := sn, confidence := cf,
    symptoms := sy, causes := ca, treatment := tr, prevention := pv }

/-!  The controller state and its operations. -/

/-- The four React state cells of `App` (src/App.tsx lines 70 to 73).
`result` holds the raw value produced by `JSON.parse`, as
`setResult(data)` stores whatever was parsed. -/
structure ControllerState where
  image : Option String
  isAnalyzing : Bool
  result : Option Json
  error : Option String

/-- The four conceptual phases of the workflow.  `Analyzing` is the
phase in which `isAnalyzing` is set; otherwise a present `error` means
`Failed`, a present `result` means `Ready`, and the empty state is
`Idle` (this is the priority with which the view renders). -/
inductive Phase where
  | idle
  | analyzing
  | ready
  | failed
deriving DecidableEq

/-- Classify a controller state into its phase. -/
def phase (st : ControllerState) : Phase :=
  if st.isAnalyzing then .analyzing
  else if st.error.isSome then .failed
  else if st.result.isSome then .ready
  else .idle

/-- The fixed user-facing failure message (src/App.tsx line 120). -/
def failMsg : String := "Failed to analyze image. Please try again with a clearer photo."

/-- Submitting an image: `handleFileChange` stores the data URL with
`setImage`, then the synchronous prefix of `analyzeImage` runs
`setIsAnalyzing(true); setError(null); setResult(null)` before the
outbound call suspends (src/App.tsx lines 76 to 79 and 126 to 137). -/
def submitState (img : String) (_st : ControllerState) : ControllerState :=
  { image := some img, isAnalyzing := true, result := none, error := none }

/-- `reset` (src/App.tsx lines 139 to 143): clears `image`, `result`
and `error`; it does not touch `isAnalyzing`. -/
def resetState (st : ControllerState) : ControllerState :=
  { st with image := none, result := none, error := none }

/-- How one outbound call settles: `reject` is a network failure,
non-success response or any exception thrown by the call (the SDK
throws on non-2xx, so all of these reach the `catch` block), carrying
its underlying cause; `fulfill` is a fulfilled call whose `text`
property is the optional response body. -/
inductive Resolution where
  | reject (cause : String)
  | fulfill (text : Option String)

/-- `response.text || "..."`: an absent or empty body falls back to the
two-character empty-object document (src/App.tsx line 116). -/
def textOrFallback : Option String → String
  | none => "\x7b\x7d"
  | some t => if t = "" then "\x7b\x7d" else t

/-- The continuation of `analyzeImage` once the call settles
(src/App.tsx lines 116 to 123): on fulfillment, `JSON.parse` of the
body (with the empty-object fallback) either yields a value stored
with `setResult`, or throws and lands in the `catch` block, which
stores the fixed message with `setError`; on rejection the `catch`
block runs directly.  The `finally` block clears `isAnalyzing` on
every path. -/
def applyResolution (res : Resolution) (st : ControllerState) : ControllerState :=
  match res with
  | .reject _ => { st with error := some failMsg, isAnalyzing := false }
  | .fulfill text =>
    match Json.parse (textOrFallback text) with
    | some j => { st with result := some j, isAnalyzing := false }
    | none => { st with error := some failMsg, isAnalyzing := false }

/-!  The outbound request built by `analyzeImage`. -/

/-- The fixed natural-language instruction sent with every request
(src/App.tsx line 94). -/
def instructionText : String := "Analyze this plant image for diseases. Provide a detailed diagnosis in JSON format. If the plant is healthy, state it clearly. Include: diseaseName, scientificName, confidence (percentage), symptoms (array), causes (array), treatment (markdown string), and prevention (markdown string)."

/-- The argument of `ai.models.generateContent` (src/App.tsx lines 83
to 113): model name, inline image part (`mimeType` and `data`), the
instruction part, and the response-shape configuration (here recorded
as the response MIME type and the `required` field names of the
schema). -/
structure GenRequest where
  model : String
  mimeType : String
  data : Option String
  instruction : String
  responseMimeType : String
  requiredFields : List String

/-- JavaScript `String.prototype.split` with a one-character separator,
on character lists. -/
def splitOnChar (sep : Char) : List Char → List (List Char)
  | [] => [[]]
  | c :: cs =>
    let r := splitOnChar sep cs
    if c = sep then [] :: r
    else
      match r with
      | [] => [[c]]
      | h :: t => (c :: h) :: t

/-- JavaScript `s.split(sep)` for a one-character separator. -/
def jsSplit (s : String) (sep : Char) : List String :=
  (splitOnChar sep s.toList).map String.mk

/-- Build the request from the data-URL input, as `analyzeImage` does:
the `mimeType` is the constant string "image/jpeg", and `data` is the
chunk after the first comma of the input
(`base64Image.split(',')[1]`, `none` modelling `undefined`). -/
def buildRequest (base64Image : String) : GenRequest :=
  { model := "gemini-3-flash-preview"
  , mimeType := "image/jpeg"
  , data := (jsSplit base64Image ',')[1]?
  , instruction := instructionText
  , responseMimeType := "application/json"
  , requiredFields := ["diseaseName", "scientificName", "confidence", "symptoms", "causes", "treatment", "prevention"] }

/-- Modelled from the spec: the MIME type an input "declares".  The
source passes data URLs (produced by `FileReader.readAsDataURL`), whose
declared type is the segment between the first colon and the following
semicolon, e.g. `image/png` in a PNG upload.  src/ contains no
function extracting it (the code never reads it), so this comparison
definition follows the spec's words in §3: "binary image payload ...
plus a declared MIME type". -/
def declaredMime (dataUrl : String) : Option String :=
  match jsSplit dataUrl ':' with
  | _ :: rest :: _ => (jsSplit rest ';')[0]?
  | _ => none

/-!  The operational semantics: traces of controller operations.

A configuration pairs the controller state with the number of
outbound calls currently in flight.  The source neither cancels nor
tags in-flight calls, so every pending call's continuation eventually
runs against whatever state then holds; since all continuations are
the same closed-over code, a pending call is fully described by its
being outstanding. -/

/-- A controller state together with the number of outbound calls in
flight. -/
structure Config where
  st : ControllerState
  pending : Nat

/-- The initial configuration: all cells empty, no call in flight. -/
def init : Config := ⟨⟨none, false, none, none⟩, 0⟩

/-- The controller's operations: submitting an image (file selection
followed by the synchronous prefix of `analyzeImage`), `reset`, and
the settling of one in-flight call. -/
inductive Event where
  | submit (img : String)
  | reset
  | resolve (res : Resolution)

/-- One operation step; `none` when a resolution is demanded with no
call in flight. -/
def stepEvent : Event → Config → Option Config
  | .submit img, c => some ⟨submitState img c.st, c.pending + 1⟩
  | .reset, c => some ⟨resetState c.st, c.pending⟩
  | .resolve res, c =>
    match c.pending with
    | 0 => none
    | p + 1 => some ⟨applyResolution res c.st, p⟩

/-- Run a sequence of operations from a configuration. -/
def runTrace : Config → List Event → Option Config
  | c, [] => some c
  | c, e :: es =>
    match stepEvent e c with
    | some c₂ => runTrace c₂ es
    | none => none

/-- Guarded reachability: configurations reachable from `init` by
operation sequences in which an image is submitted only while no
earlier call is still in flight (so at most one outbound call is ever
pending). -/
inductive GReach : Config → Prop where
  | start : GReach init
  | step {c c₂ : Config} {e : Event} : GReach c → stepEvent e c = some c₂ →
      (∀ img, e = .submit img → c.pending = 0) → GReach c₂

/-- The inductive invariant of guarded executions: at most one call in
flight; while a call is in flight (in particular whenever
`isAnalyzing` is set) `result` and `error` are clear; and `result` and
`error` are never simultaneously present. -/
def CtrlInv (c : Config) : Prop :=
  c.pending ≤ 1 ∧
  (c.st.isAnalyzing = true → c.pending = 1) ∧
  (c.pending = 1 → c.st.result = none ∧ c.st.error = none) ∧
  ¬(c.st.result.isSome = true ∧ c.st.error.isSome = true)

/-!  The presentation classification of a result (src/App.tsx line 295):
`result.diseaseName.toLowerCase().includes('healthy')` selects the
"Status: Optimal" badge, anything else "Diagnosis: Critical". -/

/-- `String.prototype.toLowerCase` (ASCII case mapping). -/
def jsToLower (s : String) : String := String.mk (s.toList.map Char.toLower)

/-- Does `l` start with `pat`? -/
def listStartsWith : List Char → List Char → Bool
  | _, [] => true
  | [], _ :: _ => false
  | a :: as, b :: bs => a == b && listStartsWith as bs

/-- JavaScript `String.prototype.includes` on character lists: does
`pat` occur contiguously inside `l`? -/
def listContainsSub : List Char → List Char → Bool
  | [], pat => pat.isEmpty
  | l@(_ :: as), pat => listStartsWith l pat || listContainsSub as pat

/-- The badge text chosen by the diagnosis card for a given
`diseaseName` (src/App.tsx line 295). -/
def statusLabel (diseaseName : String) : String :=
  if listContainsSub (jsToLower diseaseName).toList "healthy".toList
  then "Status: Optimal" else "Diagnosis: Critical"

/-- Modelled from the spec: "`diseaseName` contains the substring
(healthy) (case-insensitive)" — containment as an explicit
decomposition of the lower-cased name, independent of the boolean
scanner used by the view code. -/
def SpecContains (s pat : String) : Prop :=
  ∃ pre post : List Char, s.toList = pre ++ (pat.toList ++ post)

/-- The concrete healthy diagnosis of the spec's scenario (§8 item 7). -/
def healthyResult : AnalysisResult :=
  { diseaseName := "Healthy", scientificName := "", confidence := "99%",
    symptoms := [], causes := [], treatment := "No action needed.",
    prevention := "Maintain watering schedule." }

/-- A service body carrying exactly the healthy diagnosis. -/
def healthyBody : String := "\x7b\"diseaseName\":\"Healthy\",\"scientificName\":\"\",\"confidence\":\"99%\",\"symptoms\":[],\"causes\":[],\"treatment\":\"No action needed.\",\"prevention\":\"Maintain watering schedule.\"\x7d"

/-!  Sanity checks and round-trip lemmas. -/

theorem json_parse_sanity :
    Json.parse "\x7b\x7d" = some (.obj []) ∧
    Json.parse "" = none ∧
    Json.parse "not-json" = none ∧
    Json.parse " [1, \"a\", true] " = some (.arr [.num "1", .str "a", .bool true]) ∧
    Json.parse "\x7b\"a\": []\x7d" = some (.obj [("a", .arr [])]) ∧
    declaredMime "data:image/png;base64,QUFB" = some "image/png" :=
  ⟨rfl, rfl, rfl, rfl, rfl, rfl⟩

theorem strList_map (l : List String) : strList (l.map Json.str) = some l := by
  induction l with
  | nil => rfl
  | cons a as ih => simp [List.map, strList, ih]

theorem decode_encode (r : AnalysisResult) : decode (encode r) = some r := by
  have h4 : getField (encode r) "symptoms" = some (Json.arr (r.symptoms.map Json.str)) := rfl
  have h5 : getField (encode r) "causes" = some (Json.arr (r.causes.map Json.str)) := rfl
  have h1 : getField (encode r) "diseaseName" = some (Json.str r.diseaseName) := rfl
  have h2 : getField (encode r) "scientificName" = some (Json.str r.scientificName) := rfl
  have h3 : getField (encode r) "confidence" = some (Json.str r.confidence) := rfl
  have h6 : getField (encode r) "treatment" = some (Json.str r.treatment) := rfl
  have h7 : getField (encode r) "prevention" = some (Json.str r.prevention) := rfl
  simp [decode, h1, h2, h3, h4, h5, h6, h7, asStr, asStrList, strList_map]

theorem greach_inv {c : Config} (h : GReach c) : CtrlInv c := by
  induction h with
  | start => simp [CtrlInv, init]
  | step hg hstep hguard ih =>
    rename_i c c₂ e
    cases e with
    | submit img =>
      have hp : c.pending = 0 := hguard img rfl
      simp only [stepEvent, Option.some.injEq] at hstep
      subst hstep
      simp [CtrlInv, submitState, hp]
    | reset =>
      simp only [stepEvent, Option.some.injEq] at hstep
      subst hstep
      obtain ⟨i1, i2, _, _⟩ := ih
      exact ⟨i1, fun h => i2 h, fun _ => ⟨rfl, rfl⟩, by simp [resetState]⟩
    | resolve res =>
      obtain ⟨i1, _, i3, _⟩ := ih
      match hp : c.pending with
      | 0 => simp [stepEvent, hp] at hstep
      | p + 1 =>
        simp only [stepEvent, hp, Option.some.injEq] at hstep
        subst hstep
        have hp1 : c.pending = 1 := by omega
        obtain ⟨hres, herr⟩ := i3 hp1
        have hp0 : p = 0 := by omega
        subst hp0
        cases res with
        | reject cause =>
          simp [CtrlInv, applyResolution, hres]
        | fulfill text =>
          simp only [CtrlInv, applyResolution]
          cases hparse : Json.parse (textOrFallback text) with
          | some j => simp [herr]
          | none => simp [hres]

/-!  Correctness of the substring scanner, relating the view's boolean
test to the spec's containment notion. -/

theorem listStartsWith_iff (pat l : List Char) :
    listStartsWith l pat = true ↔ ∃ post, l = pat ++ post := by
  induction pat generalizing l with
  | nil => simp [listStartsWith]
  | cons b bs ih =>
    cases l with
    | nil => simp [listStartsWith]
    | cons a as =>
      simp [listStartsWith, Bool.and_eq_true, beq_iff_eq, ih, List.cons_eq_cons]

theorem listContainsSub_iff (l pat : List Char) :
    listContainsSub l pat = true ↔ ∃ pre post, l = pre ++ (pat ++ post) := by
  induction l with
  | nil =>
    constructor
    · intro h
      have hp : pat = [] := by
        simpa [listContainsSub, List.isEmpty_iff] using h
      exact ⟨[], [], by simp [hp]⟩
    · rintro ⟨pre, post, heq⟩
      have h₁ := List.append_eq_nil.mp heq.symm
      have h₂ := List.append_eq_nil.mp h₁.2
      simp [listContainsSub, List.isEmpty_iff, h₂.1]
  | cons c as ih =>
    constructor
    · intro h
      simp only [listContainsSub, Bool.or_eq_true] at h
      rcases h with hs | hc
      · obtain ⟨post, heq⟩ := (listStartsWith_iff pat (c :: as)).mp hs
        exact ⟨[], post, by simpa using heq⟩
      · obtain ⟨pre, post, heq⟩ := ih.mp hc
        exact ⟨c :: pre, post, by simp [heq]⟩
    · rintro ⟨pre, post, heq⟩
      simp only [listContainsSub, Bool.or_eq_true]
      cases pre with
      | nil =>
        left
        exact (listStartsWith_iff pat (c :: as)).mpr ⟨post, by simpa using heq⟩
      | cons p ps =>
        right
        simp only [List.cons_append, List.cons_eq_cons] at heq
        exact ih.mpr ⟨ps, post, heq.2⟩

/-!  The claims. -/

/-- C1 (counterexample to the claim as stated): the controller's own
operations can leave `result` and `error` simultaneously present.
The source neither cancels nor tags in-flight calls, so after
submitting an image, resetting, and submitting a second image, two
calls are in flight; the first resolving with a failure stores the
error, and the second resolving successfully then stores the result
without clearing it. -/
theorem c1_both_present_cex :
    (runTrace init [.submit "data:image/jpeg;base64,QUFB", .reset,
        .submit "data:image/jpeg;base64,QkJC",
        .resolve (.reject "network error"),
        .resolve (.fulfill (some "\x7b\x7d"))]).map
      (fun c => (c.st.result.isSome, c.st.error.isSome)) = some (true, true) := rfl

/-- C1 (amended): in every state reachable by the controller's
operations in which each image is submitted only after all earlier
outbound calls have settled (at most one call ever in flight),
`result` and `error` are never both present: entering `Analyzing`
clears both, a successful resolution sets only the result, and a
failure sets only the error. -/
theorem c1_no_result_and_error {c : Config} (h : GReach c) :
    ¬(c.st.result.isSome = true ∧ c.st.error.isSome = true) :=
  (greach_inv h).2.2.2

/-- C1 witness: the amended invariant, evaluated at the concrete
configuration reached by submitting one image from the initial
state. -/
theorem c1_no_result_and_error_witness :
    ¬((Config.mk (submitState "data:image/jpeg;base64,QUFB" init.st) 1).st.result.isSome = true ∧
      (Config.mk (submitState "data:image/jpeg;base64,QUFB" init.st) 1).st.error.isSome = true) :=
  c1_no_result_and_error
    (@GReach.step init (Config.mk (submitState "data:image/jpeg;base64,QUFB" init.st) 1)
      (Event.submit "data:image/jpeg;base64,QUFB") GReach.start rfl (fun _ _ => rfl))

/-- C2 (counterexample to the claim as stated): a non-empty body that
is not valid JSON does NOT get the empty-object fallback — `JSON.parse`
throws inside the `try` block, so the controller transitions to
`Failed` with the fixed message and no result. -/
theorem c2_unparseable_body_cex :
    (runTrace init [.submit "data:image/jpeg;base64,QUFB",
        .resolve (.fulfill (some "not-json"))]).map
      (fun c => (phase c.st, c.st.result.isSome, c.st.error)) =
      some (.failed, false, some failMsg) := rfl

/-- C2 (amended): only an empty (or absent) body receives the
empty-object fallback: the controller then stores an object with no
fields (all seven reads are `undefined`), leaves `error` absent and
lands in `Ready`, not `Failed`; a non-empty body that is valid JSON of
any shape at all — in particular of the wrong shape — is likewise
stored leniently, with `error` absent and no `Failed` transition; but
a non-empty body that is not valid JSON transitions to `Failed` with
the fixed message, leaving `result` untouched. -/
theorem c2_soft_empty (st : ControllerState) (herr : st.error = none) :
    (phase (applyResolution (.fulfill none) st) = .ready ∧
      (applyResolution (.fulfill none) st).result = some (.obj []) ∧
      (applyResolution (.fulfill none) st).error = none) ∧
    (phase (applyResolution (.fulfill (some "")) st) = .ready ∧
      (applyResolution (.fulfill (some "")) st).result = some (.obj [])) ∧
    (∀ name, getField (.obj []) name = none) ∧
    (∀ body j, Json.parse body = some j →
      phase (applyResolution (.fulfill (some body)) st) = .ready ∧
      (applyResolution (.fulfill (some body)) st).result = some j ∧
      (applyResolution (.fulfill (some body)) st).error = none) ∧
    (∀ body, body ≠ "" → Json.parse body = none →
      phase (applyResolution (.fulfill (some body)) st) = .failed ∧
      (applyResolution (.fulfill (some body)) st).error = some failMsg ∧
      (applyResolution (.fulfill (some body)) st).result = st.result) := by
  have hfb : Json.parse (textOrFallback none) = some (.obj []) := rfl
  have hfb₂ : Json.parse (textOrFallback (some "")) = some (.obj []) := rfl
  have h0 : Json.parse "" = none := rfl
  refine ⟨⟨?_, ?_, ?_⟩, ⟨?_, ?_⟩, fun _ => rfl, fun body j hj => ?_, fun body hne hp => ?_⟩
  · simp [applyResolution, hfb, phase, herr]
  · simp [applyResolution, hfb]
  · simp [applyResolution, hfb, herr]
  · simp [applyResolution, hfb₂, phase, herr]
  · simp [applyResolution, hfb₂]
  · have hne : body ≠ "" := by
      intro h
      rw [h, h0] at hj
      exact Option.noConfusion hj
    have hb : textOrFallback (some body) = body := by simp [textOrFallback, hne]
    refine ⟨?_, ?_, ?_⟩ <;> simp [applyResolution, hb, hj, phase, herr]
  · have hb : textOrFallback (some body) = body := by simp [textOrFallback, hne]
    refine ⟨?_, ?_, ?_⟩ <;> simp [applyResolution, hb, hp, phase]

/-- C2 witness: the amended behavior evaluated just after a submission
from the initial state — an absent body yields `Ready`, the valid-JSON
wrong-shape body (an object with a single numeric `foo` field) is
stored leniently and yields `Ready` with no error, and the body
"not-json" yields `Failed`. -/
theorem c2_soft_empty_witness :
    phase (applyResolution (.fulfill none)
      (submitState "data:image/jpeg;base64,QUFB" init.st)) = .ready ∧
    (phase (applyResolution (.fulfill (some "\x7b\"foo\":1\x7d"))
      (submitState "data:image/jpeg;base64,QUFB" init.st)) = .ready ∧
      (applyResolution (.fulfill (some "\x7b\"foo\":1\x7d"))
        (submitState "data:image/jpeg;base64,QUFB" init.st)).error = none) ∧
    phase (applyResolution (.fulfill (some "not-json"))
      (submitState "data:image/jpeg;base64,QUFB" init.st)) = .failed := by
  have h := c2_soft_empty (submitState "data:image/jpeg;base64,QUFB" init.st) rfl
  have hshape := h.2.2.2.1 "\x7b\"foo\":1\x7d" (.obj [("foo", .num "1")]) rfl
  exact ⟨h.1.1, ⟨hshape.1, hshape.2.2⟩, (h.2.2.2.2 "not-json" (by decide) rfl).1⟩

/-- C3 (counterexample to the claim as stated): `reset` called while a
call is in flight does not return the controller to `Idle` — `reset`
never touches `isAnalyzing`, so the state is still `Analyzing` (with
image, result and error cleared). -/
theorem c3_reset_during_analyzing_cex :
    (runTrace init [.submit "data:image/jpeg;base64,QUFB", .reset]).map
      (fun c => (phase c.st, c.st.image, c.st.result.isSome, c.st.error)) =
      some (.analyzing, none, false, none) := rfl

/-- C3 (amended): `reset()` unconditionally clears `image`, `result`
and `error`; from `Ready` or `Failed` (where `isAnalyzing` is off)
this returns the controller to `Idle`, but from `Analyzing` the
controller remains in `Analyzing` because `reset` leaves `isAnalyzing`
set. -/
theorem c3_reset_clears (st : ControllerState) :
    (resetState st).image = none ∧ (resetState st).result = none ∧
    (resetState st).error = none ∧
    (st.isAnalyzing = false → phase (resetState st) = .idle) ∧
    (st.isAnalyzing = true → phase (resetState st) = .analyzing) := by
  refine ⟨rfl, rfl, rfl, ?_, ?_⟩ <;> intro h <;> simp [resetState, phase, h]

/-- C3 witness: resetting from a `Failed` state reaches `Idle`;
resetting from an `Analyzing` state stays in `Analyzing`. -/
theorem c3_reset_clears_witness :
    phase (resetState ⟨some "data:image/jpeg;base64,QUFB", false, none, some failMsg⟩) = .idle ∧
    phase (resetState ⟨some "data:image/jpeg;base64,QUFB", true, none, none⟩) = .analyzing :=
  ⟨(c3_reset_clears _).2.2.2.1 rfl, (c3_reset_clears _).2.2.2.2 rfl⟩

/-- C4: every failing outbound call — network failure, non-2xx
response or thrown exception all reach the `catch` block as a
rejection, whatever its cause — transitions the controller to `Failed`
with exactly the fixed message, leaves an absent `result` absent, and
produces a state independent of the underlying cause (the cause is not
surfaced). -/
theorem c4_reject_failed (st : ControllerState) (cause : String)
    (hres : st.result = none) :
    (applyResolution (.reject cause) st).error = some failMsg ∧
    (applyResolution (.reject cause) st).result = none ∧
    phase (applyResolution (.reject cause) st) = .failed ∧
    (∀ cause₂, applyResolution (.reject cause₂) st = applyResolution (.reject cause) st) := by
  refine ⟨rfl, hres, ?_, fun _ => rfl⟩
  simp [applyResolution, phase, failMsg]

/-- C4 witness: a rejected call just after a submission from the
initial state lands in `Failed`. -/
theorem c4_reject_failed_witness :
    phase (applyResolution (.reject "TypeError: Failed to fetch")
      (submitState "data:image/jpeg;base64,QUFB" init.st)) = .failed :=
  (c4_reject_failed (submitState "data:image/jpeg;base64,QUFB" init.st)
    "TypeError: Failed to fetch" rfl).2.2.1

/-- C5: a successful response whose body carries all seven
`AnalysisResult` fields transitions the controller to `Ready`, stores
exactly that payload, exposes an `AnalysisResult` whose seven fields
are exactly those of the response, and leaves `error` absent. -/
theorem c5_success_ready (r : AnalysisResult) (st : ControllerState) (body : String)
    (hparse : Json.parse body = some (encode r)) (herr : st.error = none) :
    phase (applyResolution (.fulfill (some body)) st) = .ready ∧
    (applyResolution (.fulfill (some body)) st).result = some (encode r) ∧
    ((applyResolution (.fulfill (some body)) st).result.bind decode) = some r ∧
    (applyResolution (.fulfill (some body)) st).error = none := by
  have h0 : Json.parse "" = none := rfl
  have hne : body ≠ "" := by
    intro h
    rw [h, h0] at hparse
    exact Option.noConfusion hparse
  have hb : textOrFallback (some body) = body := by simp [textOrFallback, hne]
  refine ⟨?_, ?_, ?_, ?_⟩ <;>
    simp [applyResolution, hb, hparse, phase, herr, decode_encode]

/-- C5 witness: the healthy-diagnosis body parses to the seven-field
payload and lands in `Ready` with the decoded fields matching. -/
theorem c5_success_ready_witness :
    phase (applyResolution (.fulfill (some healthyBody))
      (submitState "data:image/jpeg;base64,QUFB" init.st)) = .ready ∧
    ((applyResolution (.fulfill (some healthyBody))
      (submitState "data:image/jpeg;base64,QUFB" init.st)).result.bind decode) =
        some healthyResult := by
  have h := c5_success_ready healthyResult
    (submitState "data:image/jpeg;base64,QUFB" init.st) healthyBody rfl rfl
  exact ⟨h.1, h.2.2.1⟩

/-- C6: submitting any image synchronously enters `Analyzing` with the
previous result and error cleared, while exactly one new outbound call
becomes pending; and (under the sequential-submission discipline of
guarded reachability) whenever `isAnalyzing` is set, `result` and
`error` are both absent. -/
theorem c6_submit_analyzing (img : String) (c : Config) :
    stepEvent (.submit img) c = some ⟨submitState img c.st, c.pending + 1⟩ ∧
    phase (submitState img c.st) = .analyzing ∧
    (submitState img c.st).result = none ∧
    (submitState img c.st).error = none ∧
    (submitState img c.st).image = some img ∧
    (∀ c₂, GReach c₂ → c₂.st.isAnalyzing = true →
      c₂.st.result = none ∧ c₂.st.error = none) :=
  ⟨rfl, rfl, rfl, rfl, rfl,
    fun _ h ha => (greach_inv h).2.2.1 ((greach_inv h).2.1 ha)⟩

/-- C6 witness: the while-analyzing clause evaluated at the concrete
configuration reached by one submission from the initial state. -/
theorem c6_submit_analyzing_witness :
    (Config.mk (submitState "data:image/png;base64,QUFB" init.st) 1).st.result = none ∧
    (Config.mk (submitState "data:image/png;base64,QUFB" init.st) 1).st.error = none :=
  (c6_submit_analyzing "data:image/png;base64,QUFB" init).2.2.2.2.2
    (Config.mk (submitState "data:image/png;base64,QUFB" init.st) 1)
    (@GReach.step init (Config.mk (submitState "data:image/png;base64,QUFB" init.st) 1)
      (Event.submit "data:image/png;base64,QUFB") GReach.start rfl (fun _ _ => rfl))
    rfl

/-- C7 (counterexample to the claim as stated): an input whose declared
MIME type is `image/png` is nevertheless sent with `mimeType`
`image/jpeg` — the request field is a hard-coded constant, not the
input's declared content type. -/
theorem c7_png_sent_as_jpeg_cex :
    declaredMime "data:image/png;base64,QUFB" = some "image/png" ∧
    (buildRequest "data:image/png;base64,QUFB").mimeType = "image/jpeg" ∧
    ("image/jpeg" : String) ≠ "image/png" :=
  ⟨rfl, rfl, by decide⟩

/-- C7 (amended): the outbound call always declares `mimeType`
`image/jpeg`, for every input; in particular, whenever the input
declares any other MIME type, the request's `mimeType` differs from
it. -/
theorem c7_mime_constant (input : String) :
    (buildRequest input).mimeType = "image/jpeg" ∧
    (∀ m, declaredMime input = some m → m ≠ "image/jpeg" →
      (buildRequest input).mimeType ≠ m) :=
  ⟨rfl, fun _ _ hne h => hne h.symm⟩

/-- C7 witness: the amended statement evaluated at a PNG data URL. -/
theorem c7_mime_constant_witness :
    (buildRequest "data:image/png;base64,QUFB").mimeType ≠ "image/png" :=
  (c7_mime_constant "data:image/png;base64,QUFB").2 "image/png" rfl (by decide)

/-- C8: submitting an image and receiving the healthy-diagnosis body
leaves the controller in `Ready` with exactly the scenario's field
values, the presentation classifies it "Status: Optimal", and in
general the badge reads "Status: Optimal" exactly when the lower-cased
`diseaseName` contains the substring "healthy". -/
theorem c8_healthy_scenario :
    ((runTrace init [.submit "data:image/jpeg;base64,QUFB",
        .resolve (.fulfill (some healthyBody))]).map
      (fun c => (phase c.st, c.st.result.bind decode))) =
      some (.ready, some healthyResult) ∧
    statusLabel healthyResult.diseaseName = "Status: Optimal" ∧
    (∀ name : String, statusLabel name = "Status: Optimal" ↔
      SpecContains (jsToLower name) "healthy") := by
  refine ⟨rfl, rfl, fun name => ?_⟩
  constructor
  · intro hlab
    by_cases h : listContainsSub (jsToLower name).toList "healthy".toList = true
    · exact (listContainsSub_iff _ _).mp h
    · unfold statusLabel at hlab
      rw [if_neg h] at hlab
      exact absurd hlab (by decide)
  · intro hc
    have h : listContainsSub (jsToLower name).toList "healthy".toList = true :=
      (listContainsSub_iff _ _).mpr hc
    unfold statusLabel
    rw [if_pos h]

/-- C9: `reset()` is idempotent — applying it twice from any
configuration yields exactly the state of applying it once, both at
the state level and through the operation semantics. -/
theorem c9_reset_idempotent (c : Config) :
    resetState (resetState c.st) = resetState c.st ∧
    (stepEvent .reset c).bind (stepEvent .reset) = stepEvent .reset c :=
  ⟨rfl, rfl⟩

/-- C10: `reset` modifies only `image`, `result` and `error` — it
leaves `isAnalyzing` (and the set of in-flight calls) unchanged, so a
reset issued mid-flight keeps the controller in `Analyzing`; only the
settling of the call (whose `finally` block clears the flag) ends the
`Analyzing` phase. -/
theorem c10_reset_frame (c : Config) :
    (resetState c.st).isAnalyzing = c.st.isAnalyzing ∧
    stepEvent .reset c = some ⟨resetState c.st, c.pending⟩ ∧
    (c.st.isAnalyzing = true → phase (resetState c.st) = .analyzing) ∧
    (∀ res st, (applyResolution res st).isAnalyzing = false) := by
  refine ⟨rfl, rfl, ?_, ?_⟩
  · intro h
    simp [phase, resetState, h]
  · intro res st
    cases res with
    | reject cause => rfl
    | fulfill text =>
      simp only [applyResolution]
      cases Json.parse (textOrFallback text) <;> rfl

/-- C10 witness: a reset issued while the call launched by a
submission is still in flight leaves the controller in `Analyzing`. -/
theorem c10_reset_frame_witness :
    phase (resetState (submitState "data:image/jpeg;base64,QUFB" init.st)) = .analyzing :=
  (c10_reset_frame (Config.mk (submitState "data:image/jpeg;base64,QUFB" init.st) 1)).2.2.1 rfl
